import Mathlib

/-!
Shallow embedding of the command-server core of `src/main.cpp`
(FurryFuttock/CLI): the command table and its actions (`ex`, `dir`),
the line tokenizer and dispatcher (`connection_command`), the
per-connection worker loop (`connection`), and the accept loop with its
worker-reaping pass (`main`).  Bytes are modelled as `Char` (the code
works on 8-bit `char`s), the shared `std::atomic<bool> running` flag as
an explicit `Bool` threaded through every operation, and each `send`
call on the connection socket as an explicit event so that ordering and
counting properties of the wire output can be stated exactly.
-/

/-- Model of `static std::atomic<bool> running{true}` (main.cpp line 77):
the shared shutdown flag starts `true` (= not shut down). -/
def running : Bool := true

/-- Model of C `isprint` on the byte values the program feeds it: the
printable ASCII range 0x20..0x7E. -/
def isprint (c : Char) : Bool := 32 ≤ c.toNat && c.toNat ≤ 126

/-- Model of `std::toupper` (C locale) on one character: uppercases
ASCII `a`..`z`, leaves everything else unchanged. -/
def ctoupper (c : Char) : Char :=
  if 97 ≤ c.toNat && c.toNat ≤ 122 then Char.ofNat (c.toNat - 32) else c

/-- Model of the source's `toupper(std::string&)` helper (main.cpp lines
156..164): uppercase every character of the string. -/
def toupper (s : List Char) : List Char := s.map ctoupper

/-- Tokenisation core, parameterised by the delimiter predicate `p`.
With `p = (· == ' ')` this is exactly the semantics of the source's
`strtok_r(line.data(), " ", &tmp_ptr)` loop (main.cpp lines 172..185):
runs of delimiter characters separate maximal non-delimiter runs, and
leading/trailing delimiters produce no empty tokens.  `acc` holds the
current token in reverse. -/
def tokenizeAux (p : Char → Bool) : List Char → List Char → List (List Char)
  | [], acc => if acc = [] then [] else [acc.reverse]
  | c :: cs, acc =>
    if p c then
      if acc = [] then tokenizeAux p cs []
      else acc.reverse :: tokenizeAux p cs []
    else tokenizeAux p cs (c :: acc)

/-- The tokenizer as the source uses it: `strtok_r` with the delimiter
string `" "`, i.e. the space character is the only delimiter. -/
def tokenize (line : List Char) : List (List Char) :=
  tokenizeAux (fun c => c == ' ') line []

/-- Modelled from the spec: the C-locale whitespace class (space, tab,
newline, vertical tab, form feed, carriage return), used to compare the
source's space-only tokenizer against the spec's phrase "tokenizes the
line on whitespace". -/
def isCWhitespace (c : Char) : Bool :=
  c == ' ' || c == '\t' || c == '\x0a' || c == '\x0b' || c == '\x0c' || c == '\x0d'

/-- Modelled from the spec: tokenisation on the full whitespace class,
for comparison with `tokenize`. -/
def tokenizeSpecWhitespace (line : List Char) : List (List Char) :=
  tokenizeAux isCWhitespace line []

/-- Model of the `ex` command action (main.cpp lines 146..150): ignores
its output stream, sets the shared `running` flag to `false`, writes
nothing.  An action takes the current flag and returns the new flag and
the bytes written to the response stream. -/
def ex (_r : Bool) : Bool × List Char :=
  (false, [])

/-- Model of the `dir` command action (main.cpp lines 152..154): writes
`"Directory..."` followed by `std::endl` to the response stream, leaves
the flag alone. -/
def dir (r : Bool) : Bool × List Char :=
  (r, "Directory...\x0a".data)

/-- Model of the static command table of `connection_command` (main.cpp
lines 167..170): the map from uppercased token to action. -/
def tokens : List (List Char × (Bool → Bool × List Char)) :=
  [("EX".data, ex), ("DIR".data, dir)]

/-- Lookup in the command table, modelling `tokens.find(token_str)`. -/
def lookupToken (t : List Char) : Option (Bool → Bool × List Char) :=
  (tokens.find? (fun entry => entry.1 == t)).map Prod.snd

/-- The token-processing loop of `connection_command` (main.cpp lines
174..185): for each token in order, uppercase it, look it up, and if
found run its action on the shared stream; outputs concatenate and the
flag threads through left to right.  Unknown tokens do nothing. -/
def runTokens : List (List Char) → Bool → Bool × List Char
  | [], r => (r, [])
  | t :: ts, r =>
    match lookupToken (toupper t) with
    | some act =>
      let res := act r
      let rest := runTokens ts res.1
      (rest.1, res.2 ++ rest.2)
    | none => runTokens ts r

/-- Model of `connection_command` (main.cpp lines 166..186): tokenize
the line with `strtok_r(_, " ", _)` and dispatch each token. -/
def connection_command (line : List Char) (r : Bool) : Bool × List Char :=
  runTokens (tokenize line) r

/-- One `send` call on the connection socket, as performed by
`connection` (main.cpp lines 188..273).  Modelling each call as one
event keeps the order and multiplicity of what the code writes. -/
inductive SendEvt where
  /-- `send(s, ">>", 2, 0)` at the top of `connection` (line 190). -/
  | promptInit : SendEvt
  /-- `send(s, "\r\n", 2, 0)` before a non-empty response (line 248). -/
  | lineBreak : SendEvt
  /-- `send(s, response.c_str(), response.size(), 0)` (line 249). -/
  | response (r : List Char) : SendEvt
  /-- `send(s, "\r\n>>", 4, 0)`, the fresh prompt (line 257). -/
  | prompt : SendEvt
  /-- `send(s, &chr, 1, 0)`, the one-character echo (line 267). -/
  | echo (c : Char) : SendEvt
deriving DecidableEq, Repr

/-- The bytes a `SendEvt` puts on the wire. -/
def SendEvt.bytes : SendEvt → List Char
  | .promptInit => ">>".data
  | .lineBreak => "\x0d\x0a".data
  | .response r => r
  | .prompt => "\x0d\x0a>>".data
  | .echo c => [c]

/-- State of one `connection` worker: the shared `running` flag, the
accumulated `line` buffer, and the ordered list of `send` calls made so
far on this connection's socket. -/
structure ConnSt where
  running : Bool
  line : List Char
  sent : List SendEvt
deriving DecidableEq, Repr

/-- The body of the per-byte loop of `connection` (main.cpp lines
234..269) for one received character `chr`:
a line terminator (`'\r'` or `'\n'`) dispatches the accumulated line if
non-empty (sending `"\r\n"` and the response when the response is
non-empty) and always sends a fresh prompt; a non-printable character is
discarded; a printable character is echoed and accumulated. -/
def processByte (st : ConnSt) (chr : Char) : ConnSt :=
  if chr = '\x0d' ∨ chr = '\x0a' then
    let st1 :=
      if st.line = [] then st
      else
        let res := connection_command st.line st.running
        let st' : ConnSt := ⟨res.1, [], st.sent⟩
        if res.2 = [] then st'
        else ⟨st'.running, st'.line, st'.sent ++ [SendEvt.lineBreak, SendEvt.response res.2]⟩
    ⟨st1.running, st1.line, st1.sent ++ [SendEvt.prompt]⟩
  else if isprint chr then
    ⟨st.running, st.line ++ [chr], st.sent ++ [SendEvt.echo chr]⟩
  else
    st

/-- Processing of one received buffer: the `for` loop over
`bytes_received` characters (main.cpp line 234). -/
def processBytes (st : ConnSt) (bs : List Char) : ConnSt :=
  bs.foldl processByte st

/-- Worker state at entry of `connection` (main.cpp lines 188..195): the
shared flag still at its initial value, empty line buffer, and exactly
one prompt already sent (`send(s, ">>", 2, 0)` at line 190). -/
def connInit : ConnSt :=
  ⟨running, [], [SendEvt.promptInit]⟩

/-- One outcome of the `select`/`recv` step of the worker loop (main.cpp
lines 205..231): the possible cases of the `switch` on `select` and of
the subsequent `recv`. -/
inductive ConnEvent where
  /-- `select` returned -1 (line 206). -/
  | selectError : ConnEvent
  /-- `select` returned 0, timeout (line 211). -/
  | timeout : ConnEvent
  /-- `recv` returned -1 (line 219). -/
  | recvError : ConnEvent
  /-- `recv` returned 0: peer closed the connection (line 227). -/
  | recvClosed : ConnEvent
  /-- `recv` returned `bs.length > 0` bytes, the contents of the read
  buffer (line 216). -/
  | recvData (bs : List Char) : ConnEvent
deriving DecidableEq, Repr

/-- One iteration body of the worker's `while (running)` loop (main.cpp
lines 196..272): the three failure outcomes all execute `running =
false` and break out of the `switch`; a timeout does nothing; received
data is processed byte by byte. -/
def connStep (st : ConnSt) : ConnEvent → ConnSt
  | .selectError => ⟨false, st.line, st.sent⟩
  | .timeout => st
  | .recvError => ⟨false, st.line, st.sent⟩
  | .recvClosed => ⟨false, st.line, st.sent⟩
  | .recvData bs => processBytes st bs

/-- The worker's `while (running)` loop over a sequence of step
outcomes: the flag is re-checked at the top of every iteration, and once
it is `false` no further event is processed. -/
def connRun (st : ConnSt) : List ConnEvent → ConnSt
  | [] => st
  | e :: es => if st.running then connRun (connStep st e) es else st

/-- State of the reap loop of `main` (main.cpp lines 357..364): the
iterator position `i` into the futures vector, and for each registered
worker whether its future is ready (`wait_for(0s) == ready`).  One step
is one execution of the loop body: when the future at `i` is ready it is
drained (`get`) and erased — `erase` shifts the later elements down and
the code keeps using the same position — and in either case the code
never increments `i`. -/
def reapStep : Nat × List Bool → Nat × List Bool
  | (i, ws) =>
    if h : i < ws.length then
      if ws.get ⟨i, h⟩ then (i, ws.eraseIdx i)
      else (i, ws)
    else (i, ws)

/-- The reap `while (i != std::end(threads))` loop with explicit fuel:
`none` means the loop was still running after `fuel` body executions;
`some ws` means it exited (iterator reached the end) with `ws` the
workers still registered. -/
def reapLoop : Nat → Nat × List Bool → Option (List Bool)
  | 0, _ => none
  | Nat.succ n, (i, ws) =>
    if i < ws.length then reapLoop n (reapStep (i, ws))
    else some ws

/-- State of the accept loop of `main` (main.cpp lines 339..398): the
shared flag and the registry of spawned workers (`true` = future
ready). -/
structure AcceptSt where
  running : Bool
  threads : List Bool
deriving DecidableEq, Repr

/-- One outcome of the accept loop's `select`/`accept` step (main.cpp
lines 348..374). -/
inductive AcceptEvent where
  /-- `select` returned -1 (line 349): logged, `continue`. -/
  | selectError : AcceptEvent
  /-- `select` returned 0 (line 355): run the reap pass. -/
  | timeout : AcceptEvent
  /-- `accept` returned -1 (line 370): logged, `continue`. -/
  | acceptFail : AcceptEvent
  /-- `accept` succeeded (line 376..396): spawn a worker for the new
  connection and register its (not yet ready) future. -/
  | acceptOk : AcceptEvent
deriving DecidableEq, Repr

/-- The accept loop `while (running)` (main.cpp lines 339..398) over a
sequence of step outcomes, with fuel for the inner reap loop.  Returns
`none` when the reap pass never terminates within the fuel, otherwise
`some` of the final state and the number of connections accepted.  The
loop body runs only while the shared flag is `true`. -/
def acceptRun (fuel : Nat) (st : AcceptSt) : List AcceptEvent → Option (AcceptSt × Nat)
  | [] => some (st, 0)
  | e :: es =>
    if st.running then
      match e with
      | .selectError => acceptRun fuel st es
      | .timeout =>
        match reapLoop fuel (0, st.threads) with
        | none => none
        | some ws => acceptRun fuel ⟨st.running, ws⟩ es
      | .acceptFail => acceptRun fuel st es
      | .acceptOk =>
        (acceptRun fuel ⟨st.running, st.threads ++ [false]⟩ es).map
          (fun p => (p.1, p.2 + 1))
    else some (st, 0)

/-- `true` exactly on the line-terminator bytes `'\r'` and `'\n'`. -/
def isTermByte (c : Char) : Bool := decide (c = '\x0d' ∨ c = '\x0a')

/-- `true` exactly on the fresh-prompt event (`send(s, "\r\n>>", 4, 0)`). -/
def isPromptEvt : SendEvt → Bool
  | SendEvt.prompt => true
  | _ => false

/-- `true` exactly on the initial-prompt event (`send(s, ">>", 2, 0)`). -/
def isInitPromptEvt : SendEvt → Bool
  | SendEvt.promptInit => true
  | _ => false

lemma lookupToken_cases (t : List Char) :
    lookupToken t = none ∨ lookupToken t = some ex ∨ lookupToken t = some dir := by
  unfold lookupToken tokens
  by_cases h1 : ("EX".data == t) = true
  · simp [List.find?, h1]
  · by_cases h2 : ("DIR".data == t) = true
    · simp [List.find?, h1, h2]
    · simp [List.find?, h1, h2]

lemma runTokens_false : ∀ ts : List (List Char), (runTokens ts false).1 = false := by
  intro ts
  induction ts with
  | nil => rfl
  | cons t ts ih =>
    rcases lookupToken_cases (toupper t) with h | h | h
    · simp [runTokens, h, ih]
    · simp [runTokens, h, ex, ih]
    · simp [runTokens, h, dir, ih]

lemma connection_command_false (l : List Char) : (connection_command l false).1 = false :=
  runTokens_false _

lemma processByte_false (st : ConnSt) (c : Char) (h : st.running = false) :
    (processByte st c).running = false := by
  unfold processByte
  by_cases h1 : c = '\x0d' ∨ c = '\x0a'
  · by_cases h2 : st.line = []
    · simp [h1, h2, h]
    · simp [h1, h2, h, connection_command_false]
      split
      · rfl
      · rfl
  · by_cases h2 : isprint c = true
    · simp [h1, h2, h]
    · simp [h1, h2, h]

lemma processBytes_false : ∀ (bs : List Char) (st : ConnSt), st.running = false →
    (processBytes st bs).running = false := by
  intro bs
  induction bs with
  | nil => intro st h; exact h
  | cons c cs ih =>
    intro st h
    exact ih (processByte st c) (processByte_false st c h)

lemma connStep_false (st : ConnSt) (e : ConnEvent) (h : st.running = false) :
    (connStep st e).running = false := by
  cases e with
  | selectError => rfl
  | timeout => exact h
  | recvError => rfl
  | recvClosed => rfl
  | recvData bs => exact processBytes_false bs st h

lemma connRun_stopped (st : ConnSt) (h : st.running = false) :
    ∀ es, connRun st es = st := by
  intro es
  cases es with
  | nil => rfl
  | cons e es => simp [connRun, h]

lemma acceptRun_stopped (fuel : Nat) (st : AcceptSt) (h : st.running = false) :
    ∀ es, acceptRun fuel st es = some (st, 0) := by
  intro es
  cases es with
  | nil => rfl
  | cons e es => simp [acceptRun, h]

lemma reapLoop_stuck : ∀ n, reapLoop n (0, [false]) = none := by
  intro n
  induction n with
  | zero => rfl
  | succ n ih =>
    have hstep : reapStep (0, [false]) = (0, [false]) := rfl
    simp [reapLoop, hstep, ih]

lemma acceptRun_running_eq : ∀ (es : List AcceptEvent) (fuel : Nat) (st st' : AcceptSt)
    (n : Nat), acceptRun fuel st es = some (st', n) → st'.running = st.running := by
  intro es
  induction es with
  | nil =>
    intro fuel st st' n h
    simp [acceptRun] at h
    rw [← h.1]
  | cons e es ih =>
    intro fuel st st' n h
    obtain ⟨r, ths⟩ := st
    cases r with
    | false =>
      rw [acceptRun_stopped fuel ⟨false, ths⟩ rfl (e :: es)] at h
      simp at h
      rw [h.1]
    | true =>
      show st'.running = true
      cases e with
      | selectError =>
        simp [acceptRun] at h
        exact ih fuel ⟨true, ths⟩ st' n h
      | timeout =>
        simp [acceptRun] at h
        cases hrl : reapLoop fuel (0, ths) with
        | none => rw [hrl] at h; simp at h
        | some ws =>
          rw [hrl] at h
          simp at h
          exact ih fuel ⟨true, ws⟩ st' n h
      | acceptFail =>
        simp [acceptRun] at h
        exact ih fuel ⟨true, ths⟩ st' n h
      | acceptOk =>
        simp [acceptRun] at h
        obtain ⟨p, m, hrec, hpst, hmn⟩ := h
        have hpr := ih fuel ⟨true, ths ++ [false]⟩ p m hrec
        rw [← hpst]
        exact hpr

lemma countP_processByte_prompt (st : ConnSt) (c : Char) :
    ((processByte st c).sent).countP isPromptEvt
      = st.sent.countP isPromptEvt + (if isTermByte c then 1 else 0) := by
  unfold processByte isTermByte
  by_cases h1 : c = '\x0d' ∨ c = '\x0a'
  · by_cases h2 : st.line = []
    · simp [h1, h2, List.countP_append, isPromptEvt]
    · by_cases h3 : (connection_command st.line st.running).2 = []
      · simp [h1, h2, h3, List.countP_append, isPromptEvt]
      · simp [h1, h2, h3, List.countP_append, isPromptEvt]
  · by_cases h2 : isprint c = true
    · simp [h1, h2, List.countP_append, isPromptEvt]
    · simp [h1, h2]

lemma countP_processBytes_prompt : ∀ (bs : List Char) (st : ConnSt),
    ((processBytes st bs).sent).countP isPromptEvt
      = st.sent.countP isPromptEvt + bs.countP isTermByte := by
  intro bs
  induction bs with
  | nil => intro st; simp [processBytes]
  | cons c cs ih =>
    intro st
    have h1 : processBytes st (c :: cs) = processBytes (processByte st c) cs := rfl
    rw [h1, ih, countP_processByte_prompt, List.countP_cons]
    omega

lemma countP_processByte_init (st : ConnSt) (c : Char) :
    ((processByte st c).sent).countP isInitPromptEvt
      = st.sent.countP isInitPromptEvt := by
  unfold processByte
  by_cases h1 : c = '\x0d' ∨ c = '\x0a'
  · by_cases h2 : st.line = []
    · simp [h1, h2, List.countP_append, isInitPromptEvt]
    · by_cases h3 : (connection_command st.line st.running).2 = []
      · simp [h1, h2, h3, List.countP_append, isInitPromptEvt]
      · simp [h1, h2, h3, List.countP_append, isInitPromptEvt]
  · by_cases h2 : isprint c = true
    · simp [h1, h2, List.countP_append, isInitPromptEvt]
    · simp [h1, h2]

lemma countP_processBytes_init : ∀ (bs : List Char) (st : ConnSt),
    ((processBytes st bs).sent).countP isInitPromptEvt
      = st.sent.countP isInitPromptEvt := by
  intro bs
  induction bs with
  | nil => intro st; simp [processBytes]
  | cons c cs ih =>
    intro st
    have h1 : processBytes st (c :: cs) = processBytes (processByte st c) cs := rfl
    rw [h1, ih, countP_processByte_init]

lemma processByte_skip (st : ConnSt) (c : Char) (h1 : isTermByte c = false)
    (h2 : isprint c = false) : processByte st c = st := by
  have h1' : ¬(c = '\x0d' ∨ c = '\x0a') := of_decide_eq_false h1
  unfold processByte
  simp [h1', h2]

lemma processBytes_noTerm : ∀ (bs : List Char) (st : ConnSt),
    (∀ b ∈ bs, isTermByte b = false) →
    processBytes st bs
      = ⟨st.running, st.line ++ bs.filter isprint,
         st.sent ++ (bs.filter isprint).map SendEvt.echo⟩ := by
  intro bs
  induction bs with
  | nil => intro st _; simp [processBytes]
  | cons c cs ih =>
    intro st h
    have hc := h c (List.mem_cons_self c cs)
    have hcs : ∀ b ∈ cs, isTermByte b = false := fun b hb => h b (List.mem_cons_of_mem c hb)
    have hstep : processBytes st (c :: cs) = processBytes (processByte st c) cs := rfl
    by_cases hp : isprint c = true
    · have hpb : processByte st c
          = ⟨st.running, st.line ++ [c], st.sent ++ [SendEvt.echo c]⟩ := by
        have h1' : ¬(c = '\x0d' ∨ c = '\x0a') := of_decide_eq_false hc
        unfold processByte
        simp [h1', hp]
      rw [hstep, hpb, ih _ hcs]
      simp [List.filter_cons, hp]
    · have hpb : processByte st c = st := processByte_skip st c hc (by simpa using hp)
      rw [hstep, hpb, ih _ hcs]
      simp [List.filter_cons, hp]

lemma processByte_term (st : ConnSt) (t : Char) (h : isTermByte t = true) :
    ∃ tl, (processByte st t).sent = st.sent ++ tl ∧ ∀ c, SendEvt.echo c ∉ tl := by
  have h' : t = '\x0d' ∨ t = '\x0a' := of_decide_eq_true h
  unfold processByte
  by_cases h2 : st.line = []
  · refine ⟨[SendEvt.prompt], ?_, ?_⟩
    · simp [h', h2]
    · intro c hc
      simp at hc
  · by_cases h3 : (connection_command st.line st.running).2 = []
    · refine ⟨[SendEvt.prompt], ?_, ?_⟩
      · simp [h', h2, h3]
      · intro c hc
        simp at hc
    · refine ⟨[SendEvt.lineBreak,
        SendEvt.response (connection_command st.line st.running).2, SendEvt.prompt], ?_, ?_⟩
      · simp [h', h2, h3]
      · intro c hc
        simp at hc

lemma tokenizeAux_tokens (p : Char → Bool) : ∀ (l acc : List Char),
    (∀ c ∈ acc, p c = false) →
    ∀ t ∈ tokenizeAux p l acc, t ≠ [] ∧ ∀ c ∈ t, p c = false := by
  intro l
  induction l with
  | nil =>
    intro acc hacc t ht
    unfold tokenizeAux at ht
    by_cases h : acc = []
    · simp [h] at ht
    · simp only [if_neg h, List.mem_singleton] at ht
      subst ht
      refine ⟨by simpa using h, ?_⟩
      intro c hc
      exact hacc c (by simpa using hc)
  | cons c cs ih =>
    intro acc hacc t ht
    unfold tokenizeAux at ht
    by_cases hpc : p c = true
    · rw [if_pos hpc] at ht
      by_cases h : acc = []
      · rw [if_pos h] at ht
        exact ih [] (by simp) t ht
      · rw [if_neg h] at ht
        rcases List.mem_cons.mp ht with h1 | h1
        · subst h1
          refine ⟨by simpa using h, ?_⟩
          intro d hd
          exact hacc d (by simpa using hd)
        · exact ih [] (by simp) t h1
    · rw [if_neg hpc] at ht
      refine ih (c :: acc) ?_ t ht
      intro d hd
      rcases List.mem_cons.mp hd with h1 | h1
      · subst h1
        simpa using hpc
      · exact hacc d h1

lemma tokenizeAux_congr (p q : Char → Bool) : ∀ (l acc : List Char),
    (∀ c ∈ l, p c = q c) → tokenizeAux p l acc = tokenizeAux q l acc := by
  intro l
  induction l with
  | nil => intro acc _; rfl
  | cons c cs ih =>
    intro acc h
    have hc := h c (List.mem_cons_self c cs)
    have hcs : ∀ d ∈ cs, p d = q d := fun d hd => h d (List.mem_cons_of_mem c hd)
    unfold tokenizeAux
    rw [hc]
    by_cases hq : q c = true
    · simp only [if_pos hq]
      by_cases ha : acc = []
      · simp only [if_pos ha]
        exact ih [] hcs
      · simp only [if_neg ha]
        rw [ih [] hcs]
    · simp only [if_neg hq]
      exact ih (c :: acc) hcs

lemma isprint_space_iff (c : Char) (h : isprint c = true) :
    (c == ' ') = isCWhitespace c := by
  have h32 : 32 ≤ c.toNat := by
    unfold isprint at h
    exact of_decide_eq_true (Bool.and_eq_true_iff.mp h).1
  unfold isCWhitespace
  have ht : (c == '\t') = false := by
    rw [beq_eq_false_iff_ne]
    intro hc
    subst hc
    exact absurd h32 (by decide)
  have ha : (c == '\x0a') = false := by
    rw [beq_eq_false_iff_ne]
    intro hc
    subst hc
    exact absurd h32 (by decide)
  have hb : (c == '\x0b') = false := by
    rw [beq_eq_false_iff_ne]
    intro hc
    subst hc
    exact absurd h32 (by decide)
  have hcf : (c == '\x0c') = false := by
    rw [beq_eq_false_iff_ne]
    intro hc
    subst hc
    exact absurd h32 (by decide)
  have hd : (c == '\x0d') = false := by
    rw [beq_eq_false_iff_ne]
    intro hc
    subst hc
    exact absurd h32 (by decide)
  rw [ht, ha, hb, hcf, hd]
  simp

/-- Claim C1 counterexample: the claim says a receive of zero bytes (peer
closed) has no effect on the shared ShutdownFlag, but in `connection`
(main.cpp line 229) it executes `running = false` on the shared flag:
at a concrete state with the flag up, the step changes the flag. -/
theorem conn_error_touches_shared_flag_counterexample :
    ¬ ((connStep ⟨true, [], []⟩ ConnEvent.recvClosed).running
        = (⟨true, [], []⟩ : ConnSt).running) := by
  decide

/-- Claim C1 (amended): a per-connection I/O failure (select error,
receive error, or receive of zero bytes) terminates the worker's loop by
setting the shared ShutdownFlag to `false`; since the flag is shared,
every other worker's loop stops processing events and the Accept Loop
stops accepting connections. -/
theorem conn_io_error_sets_shared_shutdown :
    (∀ st : ConnSt, (connStep st ConnEvent.selectError).running = false
      ∧ (connStep st ConnEvent.recvError).running = false
      ∧ (connStep st ConnEvent.recvClosed).running = false)
    ∧ (∀ (st : ConnSt) (es : List ConnEvent), st.running = false → connRun st es = st)
    ∧ (∀ (fuel : Nat) (st : AcceptSt) (es : List AcceptEvent), st.running = false →
        acceptRun fuel st es = some (st, 0)) := by
  refine ⟨fun st => ⟨rfl, rfl, rfl⟩, ?_, ?_⟩
  · intro st es h
    exact connRun_stopped st h es
  · intro fuel st es h
    exact acceptRun_stopped fuel st h es

/-- Claim C1 amended, witness: concrete instances of the two
hypothesised conjuncts. -/
theorem conn_io_error_sets_shared_shutdown_witness :
    connRun ⟨false, [], []⟩ [ConnEvent.timeout] = ⟨false, [], []⟩
    ∧ acceptRun 1 ⟨false, []⟩ [AcceptEvent.acceptOk] = some (⟨false, []⟩, 0) :=
  ⟨conn_io_error_sets_shared_shutdown.2.1 ⟨false, [], []⟩ [ConnEvent.timeout] rfl,
   conn_io_error_sets_shared_shutdown.2.2 1 ⟨false, []⟩ [AcceptEvent.acceptOk] rfl⟩

/-- Claim C2 (code bug in the source): with one still-running worker
registered, one reap pass does not terminate: the loop body never
advances the iterator past a not-ready future (`reapStep` is the
identity there), so no amount of fuel makes the pass finish and the
accept loop never returns to its poll loop. -/
theorem reap_pass_spins_on_running_worker :
    (reapStep (0, [false]) = (0, [false]) ∧ 0 < ([false] : List Bool).length)
    ∧ (∀ fuel : Nat, reapLoop fuel (0, [false]) = none)
    ∧ (∀ (fuel : Nat) (es : List AcceptEvent),
        acceptRun fuel ⟨true, [false]⟩ (AcceptEvent.timeout :: es) = none) := by
  refine ⟨⟨rfl, by decide⟩, reapLoop_stuck, ?_⟩
  intro fuel es
  simp [acceptRun, reapLoop_stuck]

/-- Claim C3: the worker sends exactly one initial prompt, exactly one
fresh prompt per line-terminator byte received, and on a terminator with
an empty line buffer it sends only the prompt and performs no
dispatch. -/
theorem prompt_per_terminator :
    (∀ bs : List Char,
      ((processBytes connInit bs).sent).countP isInitPromptEvt = 1
      ∧ ((processBytes connInit bs).sent).countP isPromptEvt = bs.countP isTermByte)
    ∧ (∀ (st : ConnSt) (c : Char), isTermByte c = true → st.line = [] →
        processByte st c = ⟨st.running, st.line, st.sent ++ [SendEvt.prompt]⟩) := by
  constructor
  · intro bs
    constructor
    · rw [countP_processBytes_init]
      rfl
    · rw [countP_processBytes_prompt]
      rw [show ((connInit.sent).countP isPromptEvt) = 0 from rfl, Nat.zero_add]
  · intro st c hc hl
    have h' := of_decide_eq_true hc
    unfold processByte
    simp [h', hl]

/-- Claim C3 witness: concrete instances, including the empty-line
case. -/
theorem prompt_per_terminator_witness :
    ((processBytes connInit "a\x0a\x0d".data).sent).countP isPromptEvt
        = ("a\x0a\x0d".data).countP isTermByte
    ∧ processByte ⟨true, [], []⟩ '\x0a' = ⟨true, [], [SendEvt.prompt]⟩ :=
  ⟨(prompt_per_terminator.1 "a\x0a\x0d".data).2,
   prompt_per_terminator.2 ⟨true, [], []⟩ '\x0a' (by decide) rfl⟩

/-- Claim C4: a non-printable, non-terminator byte is neither echoed nor
accumulated (the step is the identity); and for any run of bytes before
a terminator, exactly the printable ones are echoed, in receipt order,
before any of the terminator's output, and exactly they make up the
accumulated line. -/
theorem echo_order_and_filtering :
    (∀ (st : ConnSt) (c : Char), isTermByte c = false → isprint c = false →
        processByte st c = st)
    ∧ (∀ (st : ConnSt) (bs : List Char) (t : Char),
        (∀ b ∈ bs, isTermByte b = false) → isTermByte t = true →
        ∃ tl, (processBytes st (bs ++ [t])).sent
            = st.sent ++ (bs.filter isprint).map SendEvt.echo ++ tl
          ∧ (∀ c, SendEvt.echo c ∉ tl)
          ∧ (processBytes st bs).line = st.line ++ bs.filter isprint) := by
  constructor
  · intro st c h1 h2
    exact processByte_skip st c h1 h2
  · intro st bs t hbs ht
    have hsplit : processBytes st (bs ++ [t]) = processByte (processBytes st bs) t := by
      unfold processBytes
      rw [List.foldl_append]
      rfl
    have hnt := processBytes_noTerm bs st hbs
    obtain ⟨tl, htl, hecho⟩ := processByte_term (processBytes st bs) t ht
    refine ⟨tl, ?_, hecho, by rw [hnt]⟩
    rw [hsplit, htl, hnt]

/-- Claim C4 witness: a control byte is dropped; `"ab"` then `'\n'`
echoes `a`, `b` before the terminator output. -/
theorem echo_order_and_filtering_witness :
    processByte ⟨true, [], []⟩ '\x01' = ⟨true, [], []⟩
    ∧ ∃ tl, (processBytes ⟨true, [], []⟩ ("ab".data ++ ['\x0a'])).sent
        = [] ++ ("ab".data.filter isprint).map SendEvt.echo ++ tl
      ∧ (∀ c, SendEvt.echo c ∉ tl)
      ∧ (processBytes ⟨true, [], []⟩ "ab".data).line = [] ++ "ab".data.filter isprint :=
  ⟨echo_order_and_filtering.1 ⟨true, [], []⟩ '\x01' (by decide) (by decide),
   echo_order_and_filtering.2 ⟨true, [], []⟩ "ab".data '\x0a' (by decide) (by decide)⟩

/-- Claim C5: dispatching `" dir  DIR "` runs the `DIR` action exactly
twice (its placeholder output appears twice, concatenated) with the flag
untouched; tokenisation produces no empty tokens and no token contains
the delimiter; and on the lines the worker can actually accumulate
(printable characters only) the space-only tokenizer coincides with
tokenisation on the full whitespace class. -/
theorem tokenize_case_insensitive_dispatch :
    connection_command " dir  DIR ".data true
        = (true, "Directory...\x0a".data ++ "Directory...\x0a".data)
    ∧ tokenize " dir  DIR ".data = ["dir".data, "DIR".data]
    ∧ (∀ (l t : List Char), t ∈ tokenize l → t ≠ [] ∧ ' ' ∉ t)
    ∧ (∀ l : List Char, (∀ c ∈ l, isprint c = true) →
        tokenize l = tokenizeSpecWhitespace l) := by
  refine ⟨by decide, by decide, ?_, ?_⟩
  · intro l t ht
    have h := tokenizeAux_tokens (fun c => c == ' ') l [] (by simp) t ht
    refine ⟨h.1, ?_⟩
    intro hsp
    have hfalse := h.2 ' ' hsp
    simp at hfalse
  · intro l hl
    unfold tokenize tokenizeSpecWhitespace
    exact tokenizeAux_congr _ _ l [] (fun c hc => isprint_space_iff c (hl c hc))

/-- Claim C5 witness: concrete instances of the hypothesised
conjuncts. -/
theorem tokenize_case_insensitive_dispatch_witness :
    ("dir".data ≠ [] ∧ ' ' ∉ "dir".data)
    ∧ tokenize "A B".data = tokenizeSpecWhitespace "A B".data :=
  ⟨tokenize_case_insensitive_dispatch.2.2.1 " dir ".data "dir".data (by decide),
   tokenize_case_insensitive_dispatch.2.2.2 "A B".data (by decide)⟩

/-- Claim C6: a token whose uppercased form is not in the command table
contributes nothing: dispatching a token list with the unknown token
inserted anywhere equals dispatching the list without it, for every
flag value — no output, no error, no effect on the other tokens, which
run in left-to-right order. -/
theorem unknown_tokens_silently_ignored :
    ∀ (pre post : List (List Char)) (r : Bool) (unk : List Char),
      lookupToken (toupper unk) = none →
      runTokens (pre ++ unk :: post) r = runTokens (pre ++ post) r := by
  intro pre
  induction pre with
  | nil =>
    intro post r unk h
    simp [runTokens, h]
  | cons t ts ih =>
    intro post r unk h
    have hts := fun r' => ih post r' unk h
    cases hl : lookupToken (toupper t) with
    | none =>
      show runTokens (t :: (ts ++ unk :: post)) r = runTokens (t :: (ts ++ post)) r
      simp only [runTokens, hl]
      exact hts r
    | some act =>
      show runTokens (t :: (ts ++ unk :: post)) r = runTokens (t :: (ts ++ post)) r
      simp only [runTokens, hl]
      rw [hts (act r).1]

/-- Claim C6 witness: inserting the unknown token `nope` between two
`dir` tokens changes nothing. -/
theorem unknown_tokens_silently_ignored_witness :
    runTokens ["dir".data, "nope".data, "dir".data] true
      = runTokens ["dir".data, "dir".data] true :=
  unknown_tokens_silently_ignored ["dir".data] ["dir".data] true "nope".data (by decide)

/-- Claim C7: the `EX` action sets the shared flag to the shut-down
state (`running = false`) and writes no bytes; the `DIR` action writes
exactly the placeholder line `"Directory..."` (with the `std::endl`
terminator) and leaves the flag unchanged; and the command table binds
the keys `EX` and `DIR` to exactly these actions. -/
theorem builtin_actions_ex_dir :
    (∀ r : Bool, ex r = (false, ([] : List Char))
      ∧ dir r = (r, "Directory...\x0a".data))
    ∧ lookupToken "EX".data = some ex
    ∧ lookupToken "DIR".data = some dir :=
  ⟨fun _r => ⟨rfl, rfl⟩, rfl, rfl⟩

/-- Claim C7 witness: the action equations at a concrete flag value. -/
theorem builtin_actions_ex_dir_witness :
    ex true = (false, ([] : List Char))
    ∧ dir true = (true, "Directory...\x0a".data) :=
  builtin_actions_ex_dir.1 true

/-- Claim C8: the shared flag starts `true` (not shut down); `ex` moves
it to the shut-down state and doing so again is idempotent; `dir` leaves
it unchanged; dispatch and every worker-loop step keep it in the
shut-down state once there (no operation ever clears it back); and the
accept loop never writes the flag at all. -/
theorem shutdown_flag_monotone :
    running = true
    ∧ (∀ r : Bool, (ex r).1 = false ∧ ex ((ex r).1) = ex r)
    ∧ (∀ r : Bool, (dir r).1 = r)
    ∧ (∀ l : List Char, (connection_command l false).1 = false)
    ∧ (∀ (st : ConnSt) (e : ConnEvent), st.running = false →
        (connStep st e).running = false)
    ∧ (∀ (es : List AcceptEvent) (fuel : Nat) (st st' : AcceptSt) (n : Nat),
        acceptRun fuel st es = some (st', n) → st'.running = st.running) :=
  ⟨rfl, fun _r => ⟨rfl, rfl⟩, fun _r => rfl, connection_command_false,
   connStep_false, acceptRun_running_eq⟩

/-- Claim C8 witness: concrete instances of the hypothesised
conjuncts. -/
theorem shutdown_flag_monotone_witness :
    (connStep ⟨false, [], []⟩ (ConnEvent.recvData "ex".data)).running = false
    ∧ (⟨true, [false]⟩ : AcceptSt).running = (⟨true, []⟩ : AcceptSt).running :=
  ⟨shutdown_flag_monotone.2.2.2.2.1 ⟨false, [], []⟩ (ConnEvent.recvData "ex".data) rfl,
   shutdown_flag_monotone.2.2.2.2.2 [AcceptEvent.acceptOk] 1 ⟨true, []⟩ ⟨true, [false]⟩ 1
     (by decide)⟩

/-- Claim C10: a buffer holding the line `ex dir` followed by a
terminator is processed to completion inside one loop iteration: `EX`
downs the flag, the following `DIR` still runs, the response and the
fresh prompt are still sent, and only then does the loop re-check the
flag and exit — no later event is processed, whatever it is. -/
theorem ex_line_processed_to_completion :
    ∀ es : List ConnEvent,
      connRun connInit (ConnEvent.recvData "ex dir\x0d".data :: es)
        = ⟨false, [],
           [SendEvt.promptInit, SendEvt.echo 'e', SendEvt.echo 'x', SendEvt.echo ' ',
            SendEvt.echo 'd', SendEvt.echo 'i', SendEvt.echo 'r',
            SendEvt.lineBreak, SendEvt.response "Directory...\x0a".data,
            SendEvt.prompt]⟩ := by
  intro es
  have h1 : connStep connInit (ConnEvent.recvData "ex dir\x0d".data)
      = ⟨false, [],
         [SendEvt.promptInit, SendEvt.echo 'e', SendEvt.echo 'x', SendEvt.echo ' ',
          SendEvt.echo 'd', SendEvt.echo 'i', SendEvt.echo 'r',
          SendEvt.lineBreak, SendEvt.response "Directory...\x0a".data,
          SendEvt.prompt]⟩ := by decide
  have h2 : connRun connInit (ConnEvent.recvData "ex dir\x0d".data :: es)
      = connRun (connStep connInit (ConnEvent.recvData "ex dir\x0d".data)) es := by
    simp [connRun, connInit, running]
  rw [h2, h1]
  exact connRun_stopped _ rfl es

/-- Claim C10 witness: the run with no further events. -/
theorem ex_line_processed_to_completion_witness :
    connRun connInit [ConnEvent.recvData "ex dir\x0d".data]
      = ⟨false, [],
         [SendEvt.promptInit, SendEvt.echo 'e', SendEvt.echo 'x', SendEvt.echo ' ',
          SendEvt.echo 'd', SendEvt.echo 'i', SendEvt.echo 'r',
          SendEvt.lineBreak, SendEvt.response "Directory...\x0a".data,
          SendEvt.prompt]⟩ :=
  ex_line_processed_to_completion []
